import Mathlib

/-!
Shallow embedding of the Shropshire bin-collection scraper
(`bin_scraper.py`, function `scrape_and_generate_ical`).

Strings are modelled as `List Char`.  Machine-level details that the
claims depend on are modelled from the actual library semantics the
source invokes:

* `str.replace(old, new)` replaces every non-overlapping occurrence,
  scanning left to right (`removeColl`);
* `str.strip()` trims ASCII whitespace from both ends (`pyStrip`);
* `datetime.strptime(s, "%A %d, %B %Y")` is modelled by `strptimeAdBY`
  following CPython's `_strptime`: `%A`/`%B` match full weekday/month
  names case-insensitively, a literal space in the format matches one
  or more whitespace characters, `%d` matches one or two digits with
  value 1..31, `%Y` matches exactly four digits, the whole string must
  be consumed, and the resulting (year, month, day) triple must be a
  valid calendar date (leap years included) with year at least 1 —
  otherwise `ValueError`, modelled as `none`.

Exceptions are modelled as `Option`: a per-cell failure is `none` (the
cell-level `try/except` in the source turns every such failure into a
skip).  The `ics` library's `Calendar.events` is a set of events whose
uids are freshly generated per `Event()`; freshness is modelled by
using the running counter as the uid.
-/

/-- Python ASCII whitespace, as stripped by `str.strip()` and matched by
the regex class `\s` used for literal spaces in `_strptime` formats. -/
def pySpace (c : Char) : Bool :=
  c == ' ' || c == '\t' || c == '\n' || c == '\r' || c == '\x0b' || c == '\x0c'

/-- `str.strip()`: drop whitespace from both ends. -/
def pyStrip (l : List Char) : List Char :=
  ((l.dropWhile pySpace).reverse.dropWhile pySpace).reverse

/-- Boolean prefix test on character lists. -/
def isPrefOf : List Char → List Char → Bool
  | [], _ => true
  | _ :: _, [] => false
  | p :: ps, c :: cs => p == c && isPrefOf ps cs

/-- Boolean substring (contiguous) test: Python's `needle in haystack`. -/
def hasSub (pat : List Char) : List Char → Bool
  | [] => isPrefOf pat []
  | c :: rest => isPrefOf pat (c :: rest) || hasSub pat rest

/-- The literal `' Collection'` of `bin_type_raw.replace(' Collection', '')`
(11 characters). -/
def collSuffix : List Char := String.toList " Collection"

/-- Left-to-right removal of every non-overlapping occurrence of
`collSuffix`, i.e. `str.replace(' Collection', '')`.  The `fuel`
argument makes the recursion structural; each step consumes one unit of
fuel and at least one character, so starting with `fuel = l.length`
(as `removeColl` does) the `fuel = 0` fallback is reached only on the
empty list and the function agrees with Python's `replace`. -/
def removeCollFuel : Nat → List Char → List Char
  | _, [] => []
  | 0, l => l
  | fuel + 1, c :: rest =>
    if isPrefOf collSuffix (c :: rest) then
      removeCollFuel fuel ((c :: rest).drop 11)
    else
      c :: removeCollFuel fuel rest

/-- `bin_type_raw.replace(' Collection', '')`. -/
def removeColl (l : List Char) : List Char := removeCollFuel l.length l

/-- Line 77: `bin_type = bin_type_raw.replace(' Collection', '').strip()`. -/
def bin_type_norm (raw : List Char) : List Char := pyStrip (removeColl raw)

/-- A Python `datetime.date`: year, month, day. -/
structure PyDate where
  year : Nat
  month : Nat
  day : Nat
deriving DecidableEq

/-- Python `date` comparison `a <= b` (chronological, i.e. lexicographic
on (year, month, day)). -/
def PyDate.ble (a b : PyDate) : Bool :=
  decide (a.year < b.year) ||
    (decide (a.year = b.year) &&
      (decide (a.month < b.month) ||
        (decide (a.month = b.month) && decide (a.day ≤ b.day))))

/-- Python `date` comparison `a < b`. -/
def PyDate.blt (a b : PyDate) : Bool :=
  decide (a.year < b.year) ||
    (decide (a.year = b.year) &&
      (decide (a.month < b.month) ||
        (decide (a.month = b.month) && decide (a.day < b.day))))

/-- Lowercased full weekday names matched by `%A`. -/
def weekdayNames : List (List Char) :=
  [String.toList "monday", String.toList "tuesday", String.toList "wednesday",
   String.toList "thursday", String.toList "friday", String.toList "saturday",
   String.toList "sunday"]

/-- Lowercased full month names matched by `%B`, in calendar order. -/
def monthNames : List (List Char) :=
  [String.toList "january", String.toList "february", String.toList "march",
   String.toList "april", String.toList "may", String.toList "june",
   String.toList "july", String.toList "august", String.toList "september",
   String.toList "october", String.toList "november", String.toList "december"]

/-- Case-insensitively strip a (lowercase) name from the front of the
input; return the rest on success. -/
def stripNameCI : List Char → List Char → Option (List Char)
  | [], l => some l
  | _ :: _, [] => none
  | n :: ns, c :: cs => if Char.toLower c = n then stripNameCI ns cs else none

/-- Try each name in turn (none is a prefix of another, so first match is
the only match); return its position (from `i`) and the remaining input. -/
def findNameFrom (i : Nat) : List (List Char) → List Char → Option (Nat × List Char)
  | [], _ => none
  | n :: ns, l =>
    match stripNameCI n l with
    | some rest => some (i, rest)
    | none => findNameFrom (i + 1) ns l

/-- A literal space in a `strptime` format matches one or more
whitespace characters (`\s+`). -/
def dropWs1 (l : List Char) : Option (List Char) :=
  match l with
  | [] => none
  | c :: rest => if pySpace c then some (rest.dropWhile pySpace) else none

/-- Numeric value of a digit run. -/
def digitsVal (ds : List Char) : Nat :=
  ds.foldl (fun a c => 10 * a + (c.toNat - 48)) 0

/-- Gregorian leap year, as used by `datetime`. -/
def isLeap (y : Nat) : Bool :=
  (y % 4 == 0) && (y % 100 != 0 || y % 400 == 0)

/-- Number of days in a month, as validated by `datetime`. -/
def daysInMonth (y m : Nat) : Nat :=
  if m = 2 then (if isLeap y then 29 else 28)
  else if m = 4 ∨ m = 6 ∨ m = 9 ∨ m = 11 then 30
  else 31

/-- Line 86: `datetime.strptime(date_part_to_parse, "%A %d, %B %Y").date()`,
with `ValueError` (no regex match, unconverted data, or invalid calendar
date) modelled as `none`. -/
def strptimeAdBY (l : List Char) : Option PyDate :=
  match findNameFrom 0 weekdayNames l with
  | none => none
  | some (_, r1) =>
    match dropWs1 r1 with
    | none => none
    | some r2 =>
      let ds := r2.takeWhile Char.isDigit
      let r3 := r2.dropWhile Char.isDigit
      if (ds.length = 1 ∨ ds.length = 2) ∧ 1 ≤ digitsVal ds ∧ digitsVal ds ≤ 31 then
        match r3 with
        | ',' :: r4 =>
          match dropWs1 r4 with
          | none => none
          | some r5 =>
            match findNameFrom 0 monthNames r5 with
            | none => none
            | some (mi, r6) =>
              match dropWs1 r6 with
              | none => none
              | some r7 =>
                let ys := r7.takeWhile Char.isDigit
                let r8 := r7.dropWhile Char.isDigit
                if ys.length = 4 ∧ r8 = [] ∧ 1 ≤ digitsVal ys ∧
                    digitsVal ds ≤ daysInMonth (digitsVal ys) (mi + 1) then
                  some ⟨digitsVal ys, mi + 1, digitsVal ds⟩
                else none
        | _ => none
      else none

/-- The range separator `' - '` of line 82 (3 characters). -/
def sepRangeTok : List Char := String.toList " - "

/-- First occurrence of `' - '`: `some (before, after)` when present,
`none` when `' - ' in date_str_raw` is false. -/
def splitOnSep : List Char → Option (List Char × List Char)
  | [] => none
  | c :: rest =>
    if isPrefOf sepRangeTok (c :: rest) then some ([], (c :: rest).drop 3)
    else
      match splitOnSep rest with
      | some (b, a) => some (c :: b, a)
      | none => none

/-- Lines 81–83: `date_str_raw.split(' - ')[0].strip()` when the raw
string contains `' - '`, otherwise the raw string unchanged. -/
def date_part_to_parse (raw : List Char) : List Char :=
  match splitOnSep raw with
  | some (b, _) => pyStrip b
  | none => raw

/-- The class token `'past-date'` checked on line 60. -/
def pastDateClass : List Char := String.toList "past-date"

/-- One candidate day cell, as the Record Parser sees it: the `class`
attribute tokens, the `title` attribute (`none` when absent), and the
text content of the first nested `li` (`none` when the cell has no
`li`; `get_text(strip=True)` is modelled by applying `pyStrip`). -/
structure Cell where
  classes : List (List Char)
  title : Option (List Char)
  liText : Option (List Char)
deriving DecidableEq

/-- An accepted (date, type) pair — the spec's `CollectionRecord`. -/
structure CollectionRecord where
  cdate : PyDate
  ctype : List Char
deriving DecidableEq

/-- The Record Parser, lines 57–106: one cell in, one record or a skip
out.  Every per-cell failure path (missing/empty title, missing `li`,
unparseable date, and any exception in the `try` block) is `none`. -/
def process_cell (today : PyDate) (cell : Cell) : Option CollectionRecord :=
  if pastDateClass ∈ cell.classes then none
  else
    match cell.title with
    | none => none
    | some dateStrRaw =>
      if dateStrRaw = [] then none
      else
        match cell.liText with
        | none => none
        | some liRaw =>
          let binType := bin_type_norm (pyStrip liRaw)
          match strptimeAdBY (date_part_to_parse dateStrRaw) with
          | none => none
          | some d =>
            if PyDate.ble today d && decide (binType ≠ []) then
              some ⟨d, binType⟩
            else none

/-- One calendar event: a fresh uid (the `ics` library generates a fresh
uid per `Event()`; modelled by the running counter), the summary name,
and a single date — all-day, no time-of-day component. -/
structure CalEvent where
  uid : Nat
  name : List Char
  eventDate : PyDate
deriving DecidableEq

/-- The loop state: the `ics` Calendar's event set (in insertion order)
and the `events_found` counter of line 40. -/
structure LoopState where
  events : List CalEvent
  events_found : Nat
deriving DecidableEq

/-- `calendar.events.add(event)`: set insertion — a no-op when an equal
event is already present. -/
def calendarAdd (es : List CalEvent) (e : CalEvent) : List CalEvent :=
  if e ∈ es then es else es ++ [e]

/-- Lines 92–100: on acceptance, build the event from the record and add
it to the calendar, incrementing `events_found`. -/
def step_cell (today : PyDate) (st : LoopState) (cell : Cell) : LoopState :=
  match process_cell today cell with
  | none => st
  | some r =>
    { events := calendarAdd st.events ⟨st.events_found, r.ctype, r.cdate⟩,
      events_found := st.events_found + 1 }

/-- The whole cell loop (lines 57–107) starting from the empty calendar. -/
def run_cells (today : PyDate) (cells : List Cell) : LoopState :=
  cells.foldl (step_cell today) ⟨[], 0⟩

/-- Observable outcome of one run: the process exit code, whether the
output path was opened for writing at all, and — when a complete write
succeeded — the event list the serialized document contains. -/
structure RunResult where
  exitCode : Nat
  attemptedWrite : Bool
  fileContent : Option (List CalEvent)
deriving DecidableEq

/-- The whole of `scrape_and_generate_ical`, with the environment
abstracted: `fetchOk` is whether the HTTP GET succeeds, `cells` the day
cells the extractor finds, `today` the Europe/London current date, and
`writeOk` whether the file write succeeds.  Lines 30–36 (fetch failure →
`sys.exit(1)`), 48–51 (no cells → `sys.exit(1)`, file untouched),
110–125 (non-empty: write, `sys.exit(1)` on failure), 127–136 (empty:
write the empty calendar, failure only reported, normal exit). -/
def scrape_and_generate_ical (fetchOk : Bool) (cells : List Cell)
    (today : PyDate) (writeOk : Bool) : RunResult :=
  if !fetchOk then ⟨1, false, none⟩
  else if cells.isEmpty then ⟨1, false, none⟩
  else
    let st := run_cells today cells
    if st.events_found > 0 then
      if writeOk then ⟨0, true, some st.events⟩ else ⟨1, true, none⟩
    else
      if writeOk then ⟨0, true, some st.events⟩ else ⟨0, true, none⟩

/-! ### Sample inputs used by witnesses -/

/-- A sample "today". -/
def dMay8 : PyDate := ⟨2025, 5, 8⟩

/-- A well-formed future-dated cell. -/
def cellGarden : Cell :=
  ⟨[], some (String.toList "Thursday 08, May 2025"),
    some (String.toList "Garden Waste Collection")⟩

/-- A cell carrying the past-date marker class. -/
def cellPast : Cell :=
  ⟨[pastDateClass], some (String.toList "Thursday 01, May 2025"),
    some (String.toList "Recycling Collection")⟩

/-- A cell with no `title` attribute and no `li`. -/
def cellNoTitle : Cell := ⟨[], none, none⟩

/-! ### Helper lemmas -/

theorem PyDate.ble_refl (a : PyDate) : PyDate.ble a a = true := by
  simp [PyDate.ble]

theorem PyDate.blt_eq_not_ble (a b : PyDate) : PyDate.blt a b = !PyDate.ble b a := by
  rw [Bool.eq_iff_iff]
  simp only [PyDate.blt, PyDate.ble, Bool.or_eq_true, Bool.and_eq_true,
    Bool.not_eq_true', Bool.or_eq_false_iff, Bool.and_eq_false_iff,
    decide_eq_true_eq, decide_eq_false_iff_not]
  omega

/-- All uids already in the calendar are below the running counter. -/
def StateOk (st : LoopState) : Prop := ∀ e ∈ st.events, e.uid < st.events_found

theorem stateOk_nil : StateOk ⟨[], 0⟩ := by
  intro e he
  cases he

theorem step_cell_none {today : PyDate} {st : LoopState} {c : Cell}
    (h : process_cell today c = none) : step_cell today st c = st := by
  simp [step_cell, h]

theorem step_cell_some {today : PyDate} {st : LoopState} {c : Cell}
    {r : CollectionRecord} (hst : StateOk st) (h : process_cell today c = some r) :
    step_cell today st c =
      ⟨st.events ++ [⟨st.events_found, r.ctype, r.cdate⟩], st.events_found + 1⟩ := by
  have hnot : (⟨st.events_found, r.ctype, r.cdate⟩ : CalEvent) ∉ st.events := by
    intro hmem
    exact absurd (hst _ hmem) (by simp)
  simp [step_cell, h, calendarAdd, hnot]

theorem stateOk_step {today : PyDate} {st : LoopState} {c : Cell}
    (hst : StateOk st) : StateOk (step_cell today st c) := by
  cases h : process_cell today c with
  | none => rw [step_cell_none h]; exact hst
  | some r =>
    rw [step_cell_some hst h]
    intro e he
    rcases List.mem_append.1 he with h1 | h1
    · exact Nat.lt_succ_of_lt (hst _ h1)
    · rw [List.mem_singleton] at h1
      subst h1
      exact Nat.lt_succ_self _

/-- Master loop lemma: folding the per-cell step extends the calendar by
exactly the accepted records (in order, projected to name/date), and the
counter advances by exactly the number of accepted records. -/
theorem run_aux (today : PyDate) :
    ∀ (cells : List Cell) (st : LoopState), StateOk st →
      (List.foldl (step_cell today) st cells).events.map
          (fun e => (e.name, e.eventDate)) =
        st.events.map (fun e => (e.name, e.eventDate)) ++
          (cells.filterMap (process_cell today)).map (fun r => (r.ctype, r.cdate)) ∧
      (List.foldl (step_cell today) st cells).events.length =
        st.events.length + (cells.filterMap (process_cell today)).length ∧
      (List.foldl (step_cell today) st cells).events_found =
        st.events_found + (cells.filterMap (process_cell today)).length := by
  intro cells
  induction cells with
  | nil =>
    intro st _
    simp
  | cons c cs ih =>
    intro st hst
    obtain ⟨ih1, ih2, ih3⟩ := ih (step_cell today st c) (stateOk_step hst)
    rw [List.foldl_cons]
    cases h : process_cell today c with
    | none =>
      rw [step_cell_none h] at ih1 ih2 ih3
      rw [step_cell_none h]
      refine ⟨?_, ?_, ?_⟩ <;> simp [List.filterMap_cons, h, ih1, ih2, ih3]
    | some r =>
      rw [step_cell_some hst h] at ih1 ih2 ih3
      rw [step_cell_some hst h]
      refine ⟨?_, ?_, ?_⟩
      · rw [ih1]
        simp [List.filterMap_cons, h]
      · rw [ih2]
        simp [List.filterMap_cons, h]
        omega
      · rw [ih3]
        simp [List.filterMap_cons, h]
        omega

/-- `replace` is the identity on strings with no occurrence of the
pattern, at any fuel. -/
theorem removeCollFuel_no_occurrence :
    ∀ (fuel : Nat) (l : List Char), hasSub collSuffix l = false →
      removeCollFuel fuel l = l := by
  intro fuel
  induction fuel with
  | zero =>
    intro l _
    cases l <;> rfl
  | succ n ih =>
    intro l h
    cases l with
    | nil => rfl
    | cons c rest =>
      rw [hasSub, Bool.or_eq_false_iff] at h
      rw [removeCollFuel, if_neg (by simp [h.1]), ih rest h.2]

theorem removeColl_no_occurrence (l : List Char)
    (h : hasSub collSuffix l = false) : removeColl l = l :=
  removeCollFuel_no_occurrence l.length l h

theorem sepRangeTok_eq : sepRangeTok = [' ', '-', ' '] := by decide

/-- Splitting on `' - '` finds the separator right after a dash-free
prefix. -/
theorem splitOnSep_append (post : List Char) :
    ∀ pre : List Char, '-' ∉ pre →
      splitOnSep (pre ++ (sepRangeTok ++ post)) = some (pre, post) := by
  intro pre
  induction pre with
  | nil =>
    intro _
    rw [List.nil_append, sepRangeTok_eq]
    rw [splitOnSep.eq_def]
    simp [isPrefOf, sepRangeTok_eq]
  | cons c pre2 ih =>
    intro hnd
    have hcond : isPrefOf sepRangeTok (c :: (pre2 ++ (sepRangeTok ++ post))) = false := by
      cases pre2 with
      | nil => simp [isPrefOf, sepRangeTok_eq]
      | cons d pre3 =>
        have hd : d ≠ '-' := by
          intro hdeq
          exact hnd (by simp [hdeq])
        simp [isPrefOf, sepRangeTok_eq]
        intro _
        exact fun hcontra => absurd hcontra.symm hd
    have hpre2 : '-' ∉ pre2 := fun hmem => hnd (List.mem_cons_of_mem _ hmem)
    rw [List.cons_append, splitOnSep.eq_def]
    simp only [hcond, Bool.false_eq_true, if_false, ih hpre2]

/-- If `' - '` does not occur in the string, splitting finds nothing. -/
theorem splitOnSep_none :
    ∀ raw : List Char, hasSub sepRangeTok raw = false → splitOnSep raw = none := by
  intro raw
  induction raw with
  | nil =>
    intro _
    rfl
  | cons c rest ih =>
    intro h
    rw [hasSub, Bool.or_eq_false_iff] at h
    rw [splitOnSep, if_neg (by simp [h.1]), ih h.2]

example : bin_type_norm (String.toList "General Waste Collection") =
    String.toList "General Waste" := by decide

example : bin_type_norm (String.toList "Recycling") = String.toList "Recycling" := by
  decide

example : bin_type_norm (String.toList "Paper Collection Collection") =
    String.toList "Paper" := by decide

example : strptimeAdBY (String.toList "Thursday 08, May 2025") =
    some ⟨2025, 5, 8⟩ := by decide

example : strptimeAdBY (String.toList "Thursday 8, May 2025") =
    some ⟨2025, 5, 8⟩ := by decide

example : strptimeAdBY (String.toList "08/05/2025") = none := by decide

example : strptimeAdBY (String.toList "Friday 30, February 2025") = none := by decide

example : date_part_to_parse
    (String.toList "Monday 05, May 2025 - Tuesday 06, May 2025") =
    String.toList "Monday 05, May 2025" := by decide

/-! ### Claims -/

/-- C1 counterexample: the claim says normalization removes exactly one
trailing occurrence of `' Collection'`, so `"Paper Collection Collection"`
should become `"Paper Collection"`.  The code (`str.replace`) removes
every occurrence and yields `"Paper"`. -/
theorem c1_counterexample :
    bin_type_norm (String.toList "Paper Collection Collection") =
        String.toList "Paper" ∧
      bin_type_norm (String.toList "Paper Collection Collection") ≠
        String.toList "Paper Collection" := by
  decide

/-- C1 (amended): type-label normalization removes every non-overlapping
occurrence of the literal substring `' Collection'` (not just one
trailing occurrence) and trims surrounding whitespace; a label not
containing the substring is returned whitespace-trimmed but otherwise
unchanged, `"General Waste Collection"` becomes `"General Waste"`, and a
label ending in two occurrences loses both. -/
theorem c1_normalization_removes_every_occurrence (l : List Char)
    (h : hasSub collSuffix l = false) :
    bin_type_norm l = pyStrip l ∧
      bin_type_norm (String.toList "General Waste Collection") =
        String.toList "General Waste" ∧
      bin_type_norm (String.toList "Paper Collection Collection") =
        String.toList "Paper" := by
  refine ⟨?_, by decide, by decide⟩
  unfold bin_type_norm
  rw [removeColl_no_occurrence l h]

/-- C1 witness: the no-occurrence case at the concrete label
`"Recycling"`. -/
theorem c1_witness :
    hasSub collSuffix (String.toList "Recycling") = false ∧
      (bin_type_norm (String.toList "Recycling") =
          pyStrip (String.toList "Recycling") ∧
        bin_type_norm (String.toList "General Waste Collection") =
          String.toList "General Waste" ∧
        bin_type_norm (String.toList "Paper Collection Collection") =
          String.toList "Paper") :=
  ⟨by decide, c1_normalization_removes_every_occurrence
    (String.toList "Recycling") (by decide)⟩

/-- C2: for a cell that reaches date parsing (not past-marked, non-empty
title, an `li` present) and whose date string parses to `d`, a record is
emitted iff `d` is on or after `today` (the Europe/London current date,
here a parameter) and the normalized type label is non-empty; a date
strictly before today is excluded and a date equal to today is
included. -/
theorem c2_accept_iff_future_and_nonempty (today : PyDate)
    (classes : List (List Char)) (t liRaw : List Char) (d : PyDate)
    (hpast : pastDateClass ∉ classes) (ht : t ≠ [])
    (hparse : strptimeAdBY (date_part_to_parse t) = some d) :
    (process_cell today ⟨classes, some t, some liRaw⟩ ≠ none ↔
        (PyDate.ble today d = true ∧ bin_type_norm (pyStrip liRaw) ≠ [])) ∧
      (PyDate.blt d today = true →
        process_cell today ⟨classes, some t, some liRaw⟩ = none) ∧
      (d = today → bin_type_norm (pyStrip liRaw) ≠ [] →
        process_cell today ⟨classes, some t, some liRaw⟩ =
          some ⟨d, bin_type_norm (pyStrip liRaw)⟩) := by
  have hproc : process_cell today ⟨classes, some t, some liRaw⟩ =
      if PyDate.ble today d && decide (bin_type_norm (pyStrip liRaw) ≠ []) then
        some ⟨d, bin_type_norm (pyStrip liRaw)⟩
      else none := by
    simp [process_cell, hpast, ht, hparse]
  refine ⟨?_, ?_, ?_⟩
  · rw [hproc]
    by_cases hb : PyDate.ble today d = true <;>
      by_cases hty : bin_type_norm (pyStrip liRaw) = [] <;>
      simp [hb, hty]
  · intro hlt
    have hble : PyDate.ble today d = false := by
      have := PyDate.blt_eq_not_ble d today
      rw [hlt] at this
      cases hble2 : PyDate.ble today d with
      | false => rfl
      | true => rw [hble2] at this; simp at this
    rw [hproc, hble]
    simp
  · intro hd hty
    subst hd
    rw [hproc, PyDate.ble_refl]
    simp [hty]

/-- C2 witness: a cell dated exactly today is included. -/
theorem c2_witness :
    pastDateClass ∉ ([] : List (List Char)) ∧
      String.toList "Thursday 08, May 2025" ≠ [] ∧
      strptimeAdBY (date_part_to_parse (String.toList "Thursday 08, May 2025")) =
        some dMay8 ∧
      ((process_cell dMay8
            ⟨[], some (String.toList "Thursday 08, May 2025"),
              some (String.toList "General Waste Collection")⟩ ≠ none ↔
          (PyDate.ble dMay8 dMay8 = true ∧
            bin_type_norm (pyStrip (String.toList "General Waste Collection")) ≠ [])) ∧
        (PyDate.blt dMay8 dMay8 = true →
          process_cell dMay8
            ⟨[], some (String.toList "Thursday 08, May 2025"),
              some (String.toList "General Waste Collection")⟩ = none) ∧
        (dMay8 = dMay8 →
          bin_type_norm (pyStrip (String.toList "General Waste Collection")) ≠ [] →
          process_cell dMay8
            ⟨[], some (String.toList "Thursday 08, May 2025"),
              some (String.toList "General Waste Collection")⟩ =
            some ⟨dMay8, bin_type_norm (pyStrip (String.toList "General Waste Collection"))⟩)) :=
  ⟨by decide, by decide, by decide,
    c2_accept_iff_future_and_nonempty dMay8 [] (String.toList "Thursday 08, May 2025")
      (String.toList "General Waste Collection") dMay8
      (by decide) (by decide) (by decide)⟩

/-- C3: a cell carrying the `'past-date'` marker class never yields a
record, whatever its `title` attribute or `li` content — the parser
returns before reading them. -/
theorem c3_past_date_never_emits (today : PyDate) (classes : List (List Char))
    (title liText : Option (List Char)) (h : pastDateClass ∈ classes) :
    process_cell today ⟨classes, title, liText⟩ = none := by
  simp [process_cell, h]

/-- C3 witness: a concrete past-marked cell with a well-formed date and
type is still skipped. -/
theorem c3_witness :
    pastDateClass ∈ [pastDateClass] ∧
      process_cell dMay8
        ⟨[pastDateClass], some (String.toList "Thursday 08, May 2025"),
          some (String.toList "Recycling Collection")⟩ = none :=
  ⟨by decide,
    c3_past_date_never_emits dMay8 [pastDateClass]
      (some (String.toList "Thursday 08, May 2025"))
      (some (String.toList "Recycling Collection")) (by decide)⟩

/-- C4: per-cell failures are confined to the cell: a cell on which the
Record Parser produces nothing (every failure of steps 2–7, which the
source catches with the cell-level `try/except`, is such a `none`)
leaves the rest of the run exactly as if the cell were absent — the
loop state after processing any surrounding cells is unchanged, so no
per-cell error aborts the run. -/
theorem c4_bad_cell_never_aborts_run (today : PyDate) (pre post : List Cell)
    (bad : Cell) (h : process_cell today bad = none) :
    run_cells today (pre ++ bad :: post) = run_cells today (pre ++ post) := by
  unfold run_cells
  rw [List.foldl_append, List.foldl_append, List.foldl_cons, step_cell_none h]

/-- C4 witness: a cell with no `title` between two well-formed cells. -/
theorem c4_witness :
    process_cell dMay8 cellNoTitle = none ∧
      run_cells dMay8 ([cellGarden] ++ cellNoTitle :: [cellGarden]) =
        run_cells dMay8 ([cellGarden] ++ [cellGarden]) :=
  ⟨by decide,
    c4_bad_cell_never_aborts_run dMay8 [cellGarden] [cellGarden] cellNoTitle
      (by decide)⟩

/-- C5: the calendar built by the loop contains exactly the accepted
records, in acceptance order, each contributing one event whose name is
the record's normalized type and whose date is the record's parsed date
(an event carries a single date and no time-of-day component); with a
successful write the serialized document holds exactly those events —
none dropped, none duplicated. -/
theorem c5_round_trip (today : PyDate) (cells : List Cell) :
    (run_cells today cells).events.map (fun e => (e.name, e.eventDate)) =
        (cells.filterMap (process_cell today)).map (fun r => (r.ctype, r.cdate)) ∧
      (cells ≠ [] →
        (scrape_and_generate_ical true cells today true).fileContent =
          some ((run_cells today cells).events)) := by
  constructor
  · have h := (run_aux today cells ⟨[], 0⟩ stateOk_nil).1
    simpa [run_cells] using h
  · intro hne
    cases cells with
    | nil => exact absurd rfl hne
    | cons c cs =>
      by_cases hpos : (run_cells today (c :: cs)).events_found > 0 <;>
        simp [scrape_and_generate_ical, hpos]

/-- C5 witness: one accepted cell produces exactly one event with the
normalized name and parsed date, and that event is what gets written. -/
theorem c5_witness :
    (run_cells dMay8 [cellGarden]).events.map (fun e => (e.name, e.eventDate)) =
        ([cellGarden].filterMap (process_cell dMay8)).map
          (fun r => (r.ctype, r.cdate)) ∧
      (scrape_and_generate_ical true [cellGarden] dMay8 true).fileContent =
        some ((run_cells dMay8 [cellGarden]).events) :=
  ⟨(c5_round_trip dMay8 [cellGarden]).1,
    (c5_round_trip dMay8 [cellGarden]).2 (by decide)⟩

/-- C6 counterexample: the claim says only the zero-padded shape parses
and every other format fails, but the code's `%d` accepts a single-digit
day: `"Thursday 8, May 2025"` (the very example in the source's comment,
line 20) parses to May 8 2025. -/
theorem c6_counterexample :
    strptimeAdBY (String.toList "Thursday 8, May 2025") = some ⟨2025, 5, 8⟩ := by
  decide

/-- C6 (amended): date parsing accepts exactly one fixed pattern — full
weekday name, day-of-month of one or two digits (zero-padding optional),
a literal comma, full month name, four-digit year — so both
`"Thursday 08, May 2025"` and `"Thursday 8, May 2025"` parse to
May 8 2025, while a string in any other format such as `"08/05/2025"`
fails to parse and the cell is skipped without aborting the run. -/
theorem c6_exact_format_parsing :
    strptimeAdBY (String.toList "Thursday 08, May 2025") = some ⟨2025, 5, 8⟩ ∧
      strptimeAdBY (String.toList "Thursday 8, May 2025") = some ⟨2025, 5, 8⟩ ∧
      strptimeAdBY (String.toList "08/05/2025") = none ∧
      (∀ (today : PyDate) (liText : Option (List Char)),
        process_cell today ⟨[], some (String.toList "08/05/2025"), liText⟩ = none) := by
  refine ⟨by decide, by decide, by decide, ?_⟩
  intro today liText
  have hne : ¬(String.toList "08/05/2025" = []) := by decide
  have hp : strptimeAdBY (date_part_to_parse (String.toList "08/05/2025")) = none := by
    decide
  simp at hp
  cases liText <;> simp [process_cell, hne, hp]

/-- C7: when the raw date string contains `' - '`, only the portion
before the (first) separator, whitespace-trimmed, is handed to the date
parser; a string without the separator is parsed whole and unmodified. -/
theorem c7_range_truncation (pre post raw : List Char)
    (hpre : '-' ∉ pre) (hraw : hasSub sepRangeTok raw = false) :
    date_part_to_parse (pre ++ (sepRangeTok ++ post)) = pyStrip pre ∧
      date_part_to_parse raw = raw ∧
      date_part_to_parse
          (String.toList "Monday 05, May 2025 - Tuesday 06, May 2025") =
        String.toList "Monday 05, May 2025" := by
  refine ⟨?_, ?_, by decide⟩
  · unfold date_part_to_parse
    rw [splitOnSep_append post pre hpre]
  · unfold date_part_to_parse
    rw [splitOnSep_none raw hraw]

/-- C7 witness: the spec's range example, and a separator-free string. -/
theorem c7_witness :
    '-' ∉ String.toList "Monday 05, May 2025" ∧
      hasSub sepRangeTok (String.toList "Thursday 08, May 2025") = false ∧
      (date_part_to_parse (String.toList "Monday 05, May 2025" ++
            (sepRangeTok ++ String.toList "Tuesday 06, May 2025")) =
          pyStrip (String.toList "Monday 05, May 2025") ∧
        date_part_to_parse (String.toList "Thursday 08, May 2025") =
          String.toList "Thursday 08, May 2025" ∧
        date_part_to_parse
            (String.toList "Monday 05, May 2025 - Tuesday 06, May 2025") =
          String.toList "Monday 05, May 2025") :=
  ⟨by decide, by decide,
    c7_range_truncation (String.toList "Monday 05, May 2025")
      (String.toList "Tuesday 06, May 2025") (String.toList "Thursday 08, May 2025")
      (by decide) (by decide)⟩

/-- C8: when the fetch succeeds but zero day cells match the structural
marker, the run exits with a non-zero status, and the output path is
never opened — no file content is produced, regardless of whether a
write would have succeeded. -/
theorem c8_zero_cells_fatal_no_write (today : PyDate) (writeOk : Bool) :
    (scrape_and_generate_ical true [] today writeOk).exitCode ≠ 0 ∧
      (scrape_and_generate_ical true [] today writeOk).attemptedWrite = false ∧
      (scrape_and_generate_ical true [] today writeOk).fileContent = none := by
  refine ⟨?_, ?_, ?_⟩ <;> simp [scrape_and_generate_ical]

/-- C9: when day cells exist but zero records are accepted, the run
writes the empty calendar document to the output path and exits with
status 0; if that write fails the exit status is still 0 (the failure is
only reported). -/
theorem c9_zero_accepted_writes_empty (today : PyDate) (cells : List Cell)
    (writeOk : Bool) (hne : cells ≠ [])
    (hzero : (run_cells today cells).events_found = 0) :
    (scrape_and_generate_ical true cells today writeOk).exitCode = 0 ∧
      (scrape_and_generate_ical true cells today writeOk).attemptedWrite = true ∧
      (scrape_and_generate_ical true cells today writeOk).fileContent =
        (if writeOk then some [] else none) := by
  have hlen : (run_cells today cells).events.length =
      (run_cells today cells).events_found := by
    obtain ⟨-, hl, hc⟩ := run_aux today cells ⟨[], 0⟩ stateOk_nil
    simp only [run_cells]
    simp at hl hc
    omega
  have hnil : (run_cells today cells).events = [] :=
    List.length_eq_zero.mp (hlen.trans hzero)
  cases cells with
  | nil => exact absurd rfl hne
  | cons c cs =>
    refine ⟨?_, ?_, ?_⟩ <;>
      cases writeOk <;> simp [scrape_and_generate_ical, hzero, hnil]

/-- C9 witness: a single past-marked cell yields zero accepted records;
even with the write failing, the exit status is 0. -/
theorem c9_witness :
    [cellPast] ≠ ([] : List Cell) ∧
      (run_cells dMay8 [cellPast]).events_found = 0 ∧
      ((scrape_and_generate_ical true [cellPast] dMay8 false).exitCode = 0 ∧
        (scrape_and_generate_ical true [cellPast] dMay8 false).attemptedWrite = true ∧
        (scrape_and_generate_ical true [cellPast] dMay8 false).fileContent =
          (if false then some [] else none)) :=
  ⟨by decide, by decide,
    c9_zero_accepted_writes_empty dMay8 [cellPast] false (by decide) (by decide)⟩

/-- C10: loop invariant — after any number of processed cells the
`events_found` counter equals the number of events in the calendar being
built, and on the successful-write path the serialized document is
exactly the built calendar, so the reported count matches the number of
serialized events. -/
theorem c10_counter_equals_calendar_size (today : PyDate) (cells : List Cell) :
    (∀ n, ((run_cells today (cells.take n)).events).length =
        (run_cells today (cells.take n)).events_found) ∧
      (cells ≠ [] →
        (scrape_and_generate_ical true cells today true).fileContent =
            some ((run_cells today cells).events) ∧
          ((run_cells today cells).events).length =
            (run_cells today cells).events_found) := by
  have key : ∀ l : List Cell, ((run_cells today l).events).length =
      (run_cells today l).events_found := by
    intro l
    obtain ⟨-, hl, hc⟩ := run_aux today l ⟨[], 0⟩ stateOk_nil
    simp only [run_cells]
    simp at hl hc
    omega
  refine ⟨fun n => key (cells.take n), fun hne => ⟨?_, key cells⟩⟩
  cases cells with
  | nil => exact absurd rfl hne
  | cons c cs =>
    by_cases hpos : (run_cells today (c :: cs)).events_found > 0 <;>
      simp [scrape_and_generate_ical, hpos]

/-- C10 witness: the invariant and the write link at a concrete run. -/
theorem c10_witness :
    ((run_cells dMay8 ([cellGarden].take 1)).events).length =
        (run_cells dMay8 ([cellGarden].take 1)).events_found ∧
      ((scrape_and_generate_ical true [cellGarden] dMay8 true).fileContent =
          some ((run_cells dMay8 [cellGarden]).events) ∧
        ((run_cells dMay8 [cellGarden]).events).length =
          (run_cells dMay8 [cellGarden]).events_found) :=
  ⟨(c10_counter_equals_calendar_size dMay8 [cellGarden]).1 1,
    (c10_counter_equals_calendar_size dMay8 [cellGarden]).2 (by decide)⟩
